import Mathlib

/-!
Verification of the rat-ftable virtualized table engine.

The definitions below are a shallow embedding of `src/table.rs` and
`src/edit/vec.rs`.  Machine integers (`usize`, `u16`) are modelled as `Nat`;
the claims exercised here stay far from the wrap-around boundaries, with the
one exception of the `usize::MAX` sentinel of the regime-B row-count
estimation, which is modelled explicitly as `2 ^ 64 - 1`.

Types that belong to the sibling crates `rat-scrolled` (`ScrollState`) and to
modules of this repository that are not part of the sources at hand
(`RowSelection` from `selection/rowselection.rs`, `Mode` from `edit/mod.rs`)
are modelled from the specification text; their doc comments say so.
-/

namespace RatFtable

/-- `usize::MAX` of the 64-bit target, used by the regime-B estimation as a
"very large sentinel". -/
def USIZE_MAX : Nat := 2 ^ 64 - 1

/-- ratatui's `Rect` (fields are `u16` in Rust, modelled as `Nat`). -/
structure Rect where
  x : Nat
  y : Nat
  width : Nat
  height : Nat
deriving Repr, DecidableEq

/-- `Rect::right` = `x + width`. -/
def Rect.right (r : Rect) : Nat := r.x + r.width

/-- `Rect::bottom` = `y + height`. -/
def Rect.bottom (r : Rect) : Nat := r.y + r.height

/-- ratatui's `Rect::intersection`: clamp both rectangles to their common
area; widths/heights use saturating subtraction exactly as the `u16`
arithmetic does. -/
def Rect.intersection (a b : Rect) : Rect :=
  let x1 := max a.x b.x
  let y1 := max a.y b.y
  let x2 := min a.right b.right
  let y2 := min a.bottom b.bottom
  ⟨x1, y1, x2 - x1, y2 - y1⟩

/-- Modelled from the spec: the missing `rat-scrolled` crate's `ScrollState`
("Scroll Axis State — {offset, max_offset, page_len, scroll_increment}").
Only the fields the table code reads and writes are kept. -/
structure ScrollState where
  offset : Nat
  page_len : Nat
  max_offset : Nat
deriving Repr, DecidableEq

/-- Modelled from the spec: `ScrollState::set_offset`.  The spec allows
`offset` to transiently violate `offset <= max_offset` ("insane offset"), and
the table's own doc says "Due to overscroll it's possible that this is an
invalid offset for the widget", so the setter stores the value unclamped and
reports whether the offset changed. -/
def ScrollState.set_offset (s : ScrollState) (o : Nat) : ScrollState × Bool :=
  ({ s with offset := o }, decide (s.offset ≠ o))

/-- Modelled from the spec: `ScrollState::set_page_len`. -/
def ScrollState.set_page_len (s : ScrollState) (n : Nat) : ScrollState :=
  { s with page_len := n }

/-- Modelled from the spec: `ScrollState::set_max_offset`. -/
def ScrollState.set_max_offset (s : ScrollState) (n : Nat) : ScrollState :=
  { s with max_offset := n }

/-- Modelled from the spec: `ScrollState::items_added` shifts the vertical
axis bookkeeping — "any index ≥ pos shifts by +n". -/
def ScrollState.items_added (s : ScrollState) (pos n : Nat) : ScrollState :=
  { s with
    offset := if pos ≤ s.offset then s.offset + n else s.offset
    max_offset := s.max_offset + n }

/-- Modelled from the spec: `ScrollState::items_removed` — "any index ≥ pos
shifts by −n; an index that falls inside a removed range collapses onto the
removal point". -/
def ScrollState.items_removed (s : ScrollState) (pos n : Nat) : ScrollState :=
  { s with
    offset :=
      if pos ≤ s.offset then
        if s.offset < pos + n then pos else s.offset - n
      else s.offset
    max_offset := s.max_offset - n }

/-- Modelled from the spec: `RowSelection` — "lead: Option<row index>". -/
structure RowSelection where
  lead : Option Nat
deriving Repr, DecidableEq

/-- Modelled from the spec: `RowSelection::selected`. -/
def RowSelection.selected (s : RowSelection) : Option Nat := s.lead

/-- Modelled from the spec: `RowSelection::move_to(pos, max)` — "clamped to
`[0, count-1]` and returning whether the selection changed". -/
def RowSelection.move_to (s : RowSelection) (row maxrow : Nat) :
    RowSelection × Bool :=
  let newLead := some (min row maxrow)
  ({ lead := newLead }, decide (s.lead ≠ newLead))

/-- Modelled from the spec: `RowSelection::items_added` — "any index ≥ pos
shifts by +n". -/
def RowSelection.items_added (s : RowSelection) (pos n : Nat) : RowSelection :=
  { lead := s.lead.map fun i => if pos ≤ i then i + n else i }

/-- Modelled from the spec: `RowSelection::items_removed` — "any index ≥ pos
shifts by −n; an index that falls inside a removed range collapses onto the
removal point". -/
def RowSelection.items_removed (s : RowSelection) (pos n : Nat) : RowSelection :=
  { lead := s.lead.map fun i =>
      if pos + n ≤ i then i - n else if pos ≤ i then pos else i }

/-- `TableState<RowSelection>` (table.rs), restricted to the fields the
verified operations read and write.  The focus flag is a plain `Bool`. -/
structure TableState where
  focus : Bool
  table_area : Rect
  row_areas : List Rect
  column_areas : List Rect
  column_layout : List Rect
  rows : Nat
  counted_rows : Nat
  vscroll : ScrollState
  hscroll : ScrollState
  selection : RowSelection
deriving Repr, DecidableEq

/-- `TableState::row_offset` (table.rs). -/
def TableState.row_offset (s : TableState) : Nat := s.vscroll.offset

/-- `TableState::page_len` (table.rs). -/
def TableState.page_len (s : TableState) : Nat := s.vscroll.page_len

/-- `TableState::set_row_offset` (table.rs): delegates to
`vscroll.set_offset`. -/
def TableState.set_row_offset (s : TableState) (o : Nat) : TableState × Bool :=
  let (v, c) := s.vscroll.set_offset o
  ({ s with vscroll := v }, c)

/-- `TableState::x_offset` (table.rs). -/
def TableState.x_offset (s : TableState) : Nat := s.hscroll.offset

/-- `TableState::page_width` (table.rs). -/
def TableState.page_width (s : TableState) : Nat := s.hscroll.page_len

/-- `TableState::set_x_offset` (table.rs). -/
def TableState.set_x_offset (s : TableState) (o : Nat) : TableState × Bool :=
  let (v, c) := s.hscroll.set_offset o
  ({ s with hscroll := v }, c)

/-- `TableState::scroll_to_row` (table.rs:1682-1690):
if `pos` lies at/past the end of the page, scroll so it becomes the last
visible row; if before the page, scroll to it; otherwise no-op.
`pos - page_len + 1` cannot underflow in Rust because the first branch
guarantees `pos ≥ offset + page_len ≥ page_len`; `Nat` subtraction agrees. -/
def TableState.scroll_to_row (s : TableState) (pos : Nat) : TableState × Bool :=
  if pos ≥ s.row_offset + s.page_len then
    s.set_row_offset (pos - s.page_len + 1)
  else if pos < s.row_offset then
    s.set_row_offset pos
  else
    (s, false)

/-- `TableState::scroll_to_col` (table.rs:1693-1705). -/
def TableState.scroll_to_col (s : TableState) (pos : Nat) : TableState × Bool :=
  match s.column_layout.get? pos with
  | some col =>
    if col.x < s.x_offset then
      s.set_x_offset col.x
    else if col.right ≥ s.x_offset + s.page_width then
      s.set_x_offset (col.right - s.page_width)
    else
      (s, false)
  | none => (s, false)

/-- `TableState::selected` (table.rs, the `RowSelection` impl). -/
def TableState.selected (s : TableState) : Option Nat := s.selection.selected

/-- `TableState::items_added` (table.rs:1742-1746). -/
def TableState.items_added (s : TableState) (pos n : Nat) : TableState :=
  { s with
    rows := s.rows + n
    vscroll := s.vscroll.items_added pos n
    selection := s.selection.items_added pos n }

/-- `TableState::items_removed` (table.rs:1750-1754).  `self.rows -= n` is
`usize` subtraction; the claims only exercise it with `n ≤ rows`, where `Nat`
subtraction agrees. -/
def TableState.items_removed (s : TableState) (pos n : Nat) : TableState :=
  { s with
    rows := s.rows - n
    vscroll := s.vscroll.items_removed pos n
    selection := s.selection.items_removed pos n }

/-- `TableState::move_to` (table.rs:1800-1804): clamp the selection to
`rows - 1`, then scroll the (now surely present) lead into view. -/
def TableState.move_to (s : TableState) (row : Nat) : TableState × Bool :=
  let (sel, r) := s.selection.move_to row (s.rows - 1)
  let s := { s with selection := sel }
  let (s, sc) := s.scroll_to_row (sel.selected.getD 0)
  (s, r || sc)

/-- `TableState::row_cells` (table.rs:1526-1539).  The outer `Option` models
the possibility of a Rust panic: the source indexes `self.row_areas[row]`
with the absolute row index, which panics when `row` is out of bounds of
`row_areas`; `none` is that panic.  `some none` is the regular `None` return
for an invisible row; `some (some _)` is a regular `Some` return. -/
def TableState.row_cells (s : TableState) (row : Nat) :
    Option (Option (Rect × List Rect)) :=
  if row < s.vscroll.offset || decide (row ≥ s.vscroll.offset + s.vscroll.page_len) then
    some none
  else
    match s.row_areas.get? row with
    | none => none
    | some r =>
      some (some (r, s.column_areas.map fun c => ⟨c.x, r.y, c.width, r.height⟩))

/-- `TableState::calc_last_page` (table.rs:1483-1499), inner while-pop loop:
pop trailing heights, summing until the viewport height is reached.
Returns the running `(sum_heights, n_rows)`; the argument list is the
reversed `row_heights` vector, so popping from the vector's end is walking
this list from the head. -/
def calcLastPageGo (height : Nat) : List Nat → Nat → Nat → Nat × Nat
  | [], sum, n => (sum, n)
  | h :: rest, sum, n =>
    if sum + h ≥ height then (sum + h, n + 1)
    else calcLastPageGo height rest (sum + h) (n + 1)

/-- `TableState::calc_last_page` (table.rs:1483-1499): number of trailing
rows whose heights fill `table_area.height`, or `none` when even all
remaining heights do not. -/
def calc_last_page (height : Nat) (row_heights : List Nat) : Option Nat :=
  let (sum, n) := calcLastPageGo height row_heights.reverse 0 0
  if sum < height then none else some n

/-! ### The data-source cursor and the vertical part of `Table::render_iter` -/

/-- A data-source cursor as seen through `DataReprIter` (table.rs:133-230),
for a source holding `heights.length` rows with the given per-row heights.
`rowsKnown` distinguishes the counted shapes (`IterText`/`IterData`/
`IterDataRef`, whose `rows()` is `Some`) from a forward iterator without a
count (`IterIter` whose `rows()` is `None`).  `pos` is the cursor: the
`Option<usize>` the counted variants carry.  For `IterIter` the same cursor
semantics models an honest external iterator, following the spec's
forward-iterator contract (`advance_by(n) -> bool`), since the
`TableDataIter` trait itself is declared outside these sources. -/
structure IterSrc where
  heights : List Nat
  rowsKnown : Bool
  pos : Option Nat
deriving Repr, DecidableEq

/-- `DataReprIter::rows` (table.rs:145-154). -/
def IterSrc.rows (it : IterSrc) : Option Nat :=
  if it.rowsKnown then some it.heights.length else none

/-- `DataReprIter::nth` (table.rs:156-176): the `incr` closure.  From a fresh
cursor, `nth n` lands on row `n`; from row `w` it lands on `w + n + 1`; the
cursor advances even when the landing row does not exist, and the return
value says whether it does. -/
def IterSrc.nth (it : IterSrc) (n : Nat) : IterSrc × Bool :=
  match it.pos with
  | none => ({ it with pos := some n }, decide (n < it.heights.length))
  | some w =>
    ({ it with pos := some (w + n + 1) }, decide (w + n + 1 < it.heights.length))

/-- `DataReprIter::row_height` (table.rs:179-188).  Only ever consulted after
a successful `nth`, where the cursor is in bounds; out of bounds the Rust
`expect`/indexing would panic, modelled by a default of `0`. -/
def IterSrc.row_height (it : IterSrc) : Nat :=
  match it.pos with
  | none => 0
  | some w => it.heights.getD w 0

/-- Result of the body-row render loop of `Table::render_iter`
(table.rs:914-1071): the advanced cursor, the index of the last rendered row
(`row` in the source; `none` when the initial skip to the offset failed),
the collected `row_heights`, the accumulated `page_len` and `row_areas`. -/
structure RenderLoopOut where
  it : IterSrc
  row : Option Nat
  row_heights : List Nat
  page_len : Nat
  row_areas : List Rect
deriving Repr, DecidableEq

/-- The body of the render loop (table.rs:940-1057), fuel-indexed.  Per
iteration: push the current row height, record the visible row area and bump
`page_len`; stop when the row reaches the bottom of `table_area`
(`visible_row_area.bottom() >= table_area.bottom()`) or when `nth(0)` finds
no further row.  The fuel is always called with more iterations than the
source has rows, so it never runs out on an honest cursor. -/
def renderRowsGo (ta : Rect) :
    Nat → IterSrc → Nat → Nat → List Nat → Nat → List Rect → RenderLoopOut
  | 0, it, row, _, hs, pl, ras => ⟨it, some row, hs, pl, ras⟩
  | fuel + 1, it, row, row_y, hs, pl, ras =>
    let h := it.row_height
    let hs := hs ++ [h]
    let visible := (Rect.mk ta.x row_y ta.width (max h 1)).intersection ta
    let ras := ras ++ [visible]
    let pl := pl + 1
    if visible.bottom ≥ ta.bottom then ⟨it, some row, hs, pl, ras⟩
    else
      let (it, ok) := it.nth 0
      if ok then renderRowsGo ta fuel it (row + 1) (row_y + h) hs pl ras
      else ⟨it, some row, hs, pl, ras⟩

/-- The render loop of `Table::render_iter` (table.rs:938-1071): skip to the
vertical offset with `nth(offset)`; on success render rows until the page is
full or the source is exhausted, on failure render nothing (`row` stays
`None`). -/
def renderRows (ta : Rect) (it : IterSrc) (offset : Nat) : RenderLoopOut :=
  let (it, ok) := it.nth offset
  if ok then
    renderRowsGo ta (it.heights.length + 1) it offset ta.y [] 0 []
  else
    ⟨it, none, [], 0, []⟩

/-- The result of the max-offset phase of `Table::render_iter`: the fields of
the table state the phase assigns (table.rs:1073-1180).  The vertical offset
itself is never written by the render pass. -/
structure VertOut where
  rows : Nat
  counted_rows : Nat
  max_offset : Nat
  page_len : Nat
deriving Repr, DecidableEq

/-- The height-collecting loop of regime A (table.rs:1094-1108), fuel-indexed:
push the current row height, keep at most `ta.height` entries by dropping the
oldest (`row_heights.remove(0)`), advance; also stop (`row > rows`) when the
reported count claims fewer rows than actually exist. -/
def collectGo (ta : Rect) (rows : Nat) :
    Nat → IterSrc → Nat → List Nat → IterSrc × Nat × List Nat
  | 0, it, row, hs => (it, row, hs)
  | fuel + 1, it, row, hs =>
    let hs := hs ++ [it.row_height]
    let hs := if hs.length > ta.height then hs.tail else hs
    let (it, ok) := it.nth 0
    if !ok then (it, row, hs)
    else
      let row := row + 1
      if row > rows then (it, row, hs)
      else collectGo ta rows fuel it row hs

/-- The draining loop of regime A (table.rs:1111-1113), fuel-indexed: count
any rows left beyond the early `row > rows` break, so a wrong reported count
can be diagnosed. -/
def drainGo : Nat → IterSrc → Nat → IterSrc × Nat
  | 0, it, row => (it, row)
  | fuel + 1, it, row =>
    let (it, ok) := it.nth 0
    if ok then drainGo fuel it (row + 1) else (it, row)

/-- Regime A of `Table::render_iter` (table.rs:1078-1132): the source reports
a count `rows`.  Skip to a guess for the last page, collect the remaining
row heights (sliding window of `table_area.height` entries), then derive
`max_offset` from `calc_last_page`, falling back to
`rows.saturating_sub(table_area.height)` when the collected heights cannot
fill a page. -/
def regimeA (ta : Rect) (pl : Nat) (it : IterSrc) (rowOpt : Option Nat)
    (row_heights : List Nat) (rows : Nat) : VertOut :=
  let rendered := match rowOpt with | none => 0 | some v => v + 1
  let skip_rows := rows - rendered - ta.height
  let row_heights := if skip_rows > 0 then [] else row_heights
  let (it2, ok) := it.nth skip_rows
  let (rowOpt, row_heights) :=
    if ok then
      let row0 := match rowOpt with | none => skip_rows | some r => r + skip_rows + 1
      let (it3, row1, hs) := collectGo ta rows (it2.heights.length + 2) it2 row0 row_heights
      let (_, row2) := drainGo (it3.heights.length + 2) it3 row1
      (some row2, hs)
    else (rowOpt, row_heights)
  let counted := match rowOpt with | none => 0 | some v => v + 1
  let max_offset :=
    match calc_last_page ta.height row_heights with
    | some last_page => rows - last_page
    | none => rows - ta.height
  ⟨rows, counted, max_offset, pl⟩

/-- Regime B of `Table::render_iter` (table.rs:1133-1156): no count, the
caller opted out of a full scan.  Probe at most two rows past the rendered
page; `max_offset` is assigned the `usize::MAX - 1` sentinel; an empty
`page_len` is patched to the viewport height. -/
def regimeB (ta : Rect) (pl : Nat) (it : IterSrc) (rowOpt : Option Nat) : VertOut :=
  let rowOpt :=
    match rowOpt with
    | none => none
    | some r =>
      let (it2, ok) := it.nth 0
      if ok then
        let r := r + 1
        let (_, ok2) := it2.nth 0
        if ok2 then some (USIZE_MAX - 1) else some r
      else some r
  let rows := match rowOpt with | none => 0 | some v => v + 1
  let pl := if pl = 0 then ta.height else pl
  ⟨rows, rows, USIZE_MAX - 1, pl⟩

/-- The exhaustive-scan loop of regime C (table.rs:1161-1168), fuel-indexed:
read all remaining rows, keeping a sliding window of `ta.height` heights. -/
def regimeCGo (ta : Rect) :
    Nat → IterSrc → Option Nat → List Nat → Option Nat × List Nat
  | 0, _, row, hs => (row, hs)
  | fuel + 1, it, row, hs =>
    let (it, ok) := it.nth 0
    if ok then
      let hs := hs ++ [it.row_height]
      let hs := if hs.length > ta.height then hs.tail else hs
      let row := some (match row with | none => 0 | some v => v + 1)
      regimeCGo ta fuel it row hs
    else (row, hs)

/-- Regime C of `Table::render_iter` (table.rs:1157-1179): no count, full
scan required; exhaust the source and compute the exact last page, with a
fallback `max_offset = 0`. -/
def regimeC (ta : Rect) (pl : Nat) (it : IterSrc) (rowOpt : Option Nat)
    (row_heights : List Nat) : VertOut :=
  let (rowOpt, row_heights) :=
    regimeCGo ta (it.heights.length + 2) it rowOpt row_heights
  let rows := match rowOpt with | none => 0 | some v => v + 1
  let max_offset :=
    match calc_last_page ta.height row_heights with
    | some last_page => rows - last_page
    | none => 0
  ⟨rows, rows, max_offset, pl⟩

/-- The vertical bookkeeping of one full `Table::render_iter` pass
(table.rs:914-1180): render the visible page starting at `offset`, then
re-establish `rows`, `_counted_rows`, `max_offset` and `page_len` under the
regime selected by the source's count knowledge and the widget's
`no_row_count` flag.  Returns the assigned fields together with the
`row_areas` of the rendered page.  The vertical offset is not modified by
the pass. -/
def render_iter_vert (ta : Rect) (no_row_count : Bool) (src : IterSrc)
    (offset : Nat) : VertOut × List Rect :=
  let lo := renderRows ta src offset
  match lo.it.rows with
  | some rows => (regimeA ta lo.page_len lo.it lo.row lo.row_heights rows, lo.row_areas)
  | none =>
    if no_row_count then (regimeB ta lo.page_len lo.it lo.row, lo.row_areas)
    else (regimeC ta lo.page_len lo.it lo.row lo.row_heights, lo.row_areas)

/-- The per-cell visibility test of `Table::render_iter` (table.rs:1028-1030):
`render_cell_area.right() > hscroll.offset || render_cell_area.left() <
hscroll.offset + area.width`.  `render_cell` is invoked exactly when this is
`true`.  Note the test is a disjunction in the source. -/
def cellVisibleTest (cellLeft cellWidth hoff areaWidth : Nat) : Bool :=
  decide (cellLeft + cellWidth > hoff) || decide (cellLeft < hoff + areaWidth)

/-! ### `DataRepr` and the degraded `Invalid` iterator -/

/-- A `TableData` facade (the trait lives in the crate root, outside these
sources); modelled from the spec's random-access variant: a row count and
per-row heights. -/
structure TData where
  rows : Nat
  height : Nat → Nat

/-- `DataRepr` (table.rs:91-98).  `Text` carries the pre-built rows (their
heights); `Iter` carries the user's `TableDataIter` object together with the
result of its `cloned()` (`none` when cloning a fresh cursor is not
supported). -/
inductive DataRepr where
  | None
  | Text (rows : List Nat)
  | Data (d : TData)
  | Iter (it : IterSrc) (clonedResult : Option IterSrc)

/-- `DataReprIter` (table.rs:133-142). -/
inductive DataReprIter where
  | None
  | Invalid (row : Option Nat)
  | IterText (rows : List Nat) (row : Option Nat)
  | IterData (d : TData) (row : Option Nat)
  | IterDataRef (d : TData) (row : Option Nat)
  | IterIter (it : IterSrc)

/-- `DataRepr::iter` (table.rs:110-124), the by-reference iteration used by
`render_ref`: a `TableDataIter` that cannot produce a fresh cursor via
`cloned()` degrades to `DataReprIter::Invalid(None)`. -/
def DataRepr.iter : DataRepr → DataReprIter
  | .None => .None
  | .Text v => .IterDataRef ⟨v.length, fun i => v.getD i 0⟩ none
  | .Data d => .IterDataRef d none
  | .Iter _ clonedResult =>
    match clonedResult with
    | some v => .IterIter v
    | none => .Invalid none

/-- `DataReprIter::rows` (table.rs:145-154): the `Invalid` variant reports
exactly one row. -/
def DataReprIter.rows : DataReprIter → Option Nat
  | .None => some 0
  | .Invalid _ => some 1
  | .IterText v _ => some v.length
  | .IterData d _ => some d.rows
  | .IterDataRef d _ => some d.rows
  | .IterIter it => it.rows

/-- `DataReprIter::nth` (table.rs:156-176). -/
def DataReprIter.nth : DataReprIter → Nat → DataReprIter × Bool
  | .None, _ => (.None, false)
  | .Invalid row, n =>
    match row with
    | none => (.Invalid (some n), decide (n < 1))
    | some w => (.Invalid (some (w + n + 1)), decide (w + n + 1 < 1))
  | .IterText v row, n =>
    match row with
    | none => (.IterText v (some n), decide (n < v.length))
    | some w => (.IterText v (some (w + n + 1)), decide (w + n + 1 < v.length))
  | .IterData d row, n =>
    match row with
    | none => (.IterData d (some n), decide (n < d.rows))
    | some w => (.IterData d (some (w + n + 1)), decide (w + n + 1 < d.rows))
  | .IterDataRef d row, n =>
    match row with
    | none => (.IterDataRef d (some n), decide (n < d.rows))
    | some w => (.IterDataRef d (some (w + n + 1)), decide (w + n + 1 < d.rows))
  | .IterIter it, n =>
    let (it, ok) := it.nth n
    (.IterIter it, ok)

/-- The diagnostic text the `Invalid` iterator writes (table.rs:210-215). -/
def invalidDiagnostic : String :=
  "TableDataIter must implement a valid cloned() for this"

/-- The buffer write performed by `DataReprIter::render_cell`
(table.rs:202-229) for the `Invalid` variant: a single diagnostic string at
the cell area's origin, and only in column 0.  The other variants delegate
to the user data's `render_cell`, which lies outside the embedded fragment;
they perform no diagnostic write, so they are mapped to `none` here. -/
def DataReprIter.render_cell_diag : DataReprIter → Nat → Rect →
    Option (Nat × Nat × String)
  | .Invalid _, column, area =>
    if column = 0 then some (area.x, area.y, invalidDiagnostic) else none
  | _, _, _ => none

/-! ### The row editor overlay (`EditVecState`, src/edit/vec.rs) -/

/-- Modelled from the spec: the editor overlay mode (`edit/mod.rs` is not
among the sources): "mode ∈ {View, Insert, Edit}". -/
inductive Mode where
  | view
  | insert
  | edit
deriving Repr, DecidableEq

variable {D Err : Type}

/-- `EditVecState` (edit/vec.rs:60-77), restricted to the fields its
operations touch.  `editor_data` is the backing `Rc<RefCell<Vec<D>>>`;
`editor_focus` the editor's focus flag (the table's own flag lives in
`table.focus`). -/
structure EditVecState (D : Type) where
  mode : Mode
  table : TableState
  editor_data : List D
  editor_focus : Bool

/-- `EditVecState::_start` (edit/vec.rs:331-344): steal the focus if the
table held it, set the mode, on `Insert` shift the table's bookkeeping for
the freshly inserted row, move the selection to the row and scroll column 0
into view. -/
def EditVecState.mstart (st : EditVecState D) (pos : Nat) (mode : Mode) :
    EditVecState D :=
  let st :=
    if st.table.focus then
      { st with table := { st.table with focus := false }, editor_focus := true }
    else st
  let st := { st with mode := mode }
  let st :=
    if mode = Mode.insert then { st with table := st.table.items_added pos 1 }
    else st
  let st := { st with table := (st.table.move_to pos).1 }
  { st with table := (st.table.scroll_to_col 0).1 }

/-- `EditVecState::_stop` (edit/vec.rs:398-405): back to `View`, hand the
focus back to the table, scroll column 0 into view. -/
def EditVecState.mstop (st : EditVecState D) : EditVecState D :=
  let st := { st with mode := Mode.view }
  let st :=
    if st.editor_focus then
      { st with table := { st.table with focus := true }, editor_focus := false }
    else st
  { st with table := (st.table.scroll_to_col 0).1 }

/-- `EditVecState::remove` (edit/vec.rs:293-304): only legal in `View`;
remove the row from the backing vec, shift the table bookkeeping, keep a
row in view. -/
def EditVecState.remove (st : EditVecState D) (row : Nat) : EditVecState D :=
  if st.mode ≠ Mode.view then st
  else if row < st.editor_data.length then
    let st := { st with
      editor_data := st.editor_data.eraseIdx row
      table := st.table.items_removed row 1 }
    let (t, moved) := st.table.scroll_to_row row
    let t := if moved then t else (t.scroll_to_row (row - 1)).1
    { st with table := t }
  else st

/-- `EditVecState::edit_new` (edit/vec.rs:307-316).  The editor widget's
`new_edit_data(ctx)` and `set_edit_data(&value, ctx)` calls are supplied as
arguments.  The outer `Option` models a Rust panic (`Vec::insert` panics
when `row > len`); the inner `Except` is the function's `Result`.  Already
outside `View` the call is a successful no-op. -/
def EditVecState.edit_new (st : EditVecState D) (row : Nat)
    (new_edit_data : Except Err D) (set_edit_data : D → Except Err Unit) :
    Option (EditVecState D × Except Err Unit) :=
  if st.mode ≠ Mode.view then some (st, Except.ok ())
  else
    match new_edit_data with
    | Except.error e => some (st, Except.error e)
    | Except.ok value =>
      match set_edit_data value with
      | Except.error e => some (st, Except.error e)
      | Except.ok _ =>
        if row ≤ st.editor_data.length then
          some (({ st with editor_data := st.editor_data.insertIdx row value
                 } : EditVecState D).mstart row Mode.insert, Except.ok ())
        else none

/-- `EditVecState::edit` (edit/vec.rs:319-329).  The outer `Option` models
the panic of `editor_data.borrow()[row]` on an out-of-range row. -/
def EditVecState.edit (st : EditVecState D) (row : Nat)
    (set_edit_data : D → Except Err Unit) :
    Option (EditVecState D × Except Err Unit) :=
  if st.mode ≠ Mode.view then some (st, Except.ok ())
  else
    match st.editor_data.get? row with
    | none => none
    | some value =>
      match set_edit_data value with
      | Except.error e => some (st, Except.error e)
      | Except.ok _ => some (st.mstart row Mode.edit, Except.ok ())

/-- `EditVecState::cancel` (edit/vec.rs:349-361): no-op in `View`; for
`Insert` remove the placeholder row (the `Option` models the panic of
`Vec::remove` on an out-of-range selected row), then `_stop`. -/
def EditVecState.cancel (st : EditVecState D) : Option (EditVecState D) :=
  if st.mode = Mode.view then some st
  else
    match st.table.selected with
    | none => some st
    | some row =>
      if st.mode = Mode.insert then
        if row < st.editor_data.length then
          some (({ st with
            editor_data := st.editor_data.eraseIdx row
            table := st.table.items_removed row 1 } : EditVecState D).mstop)
        else none
      else some st.mstop

/-- `EditVecState::commit` (edit/vec.rs:364-377).  The editor's
`get_edit_data(&mut value, ctx)` mutates the selected row's value in place
and may fail; it is supplied as a function from the old value to the
`Result` plus the (possibly partially updated) value.  On failure the error
is propagated and `_stop` is not executed. -/
def EditVecState.commit (st : EditVecState D)
    (get_edit_data : D → Except Err Unit × D) :
    Option (EditVecState D × Except Err Unit) :=
  if st.mode = Mode.view then some (st, Except.ok ())
  else
    match st.table.selected with
    | none => some (st, Except.ok ())
    | some row =>
      match st.editor_data.get? row with
      | none => none
      | some value =>
        let (res, value) := get_edit_data value
        let st := { st with editor_data := st.editor_data.set row value }
        match res with
        | Except.error e => some (st, Except.error e)
        | Except.ok _ => some (st.mstop, Except.ok ())

/-! ### Specification-side definitions

These two definitions follow the words of the specification, not the code;
they exist to be compared against the embedded code. -/

/-- From the spec's words ("sum the trailing heights to determine how many
full rows fit in the final page"): walking the trailing heights (the input
list is the reversed height list, trailing row first), the number of rows
needed for the summed heights to reach `H`; `none` when even all of them do
not reach `H`. -/
def fillCountRev : Nat → List Nat → Option Nat
  | 0, _ => some 0
  | _ + 1, [] => none
  | h + 1, x :: t =>
    if h + 1 ≤ x then some 1
    else (fillCountRev (h + 1 - x) t).map fun k => k + 1

/-- From the spec's words: `last_page_row_count` — "the count of trailing
rows whose summed heights fill the viewport".  When no count of trailing
rows fills the viewport, every row belongs to the last page, so the count
defaults to the full row count. -/
def lastPageRowCount (heights : List Nat) (H : Nat) : Nat :=
  (fillCountRev H heights.reverse).getD heights.length

/-! ### Helper definitions for the proofs -/

/-- The sub-list of rows `a ≤ i < b` of a height list. -/
def slice (l : List Nat) (a b : Nat) : List Nat := (l.drop a).take (b - a)

/-- One step of the sliding-window height collection (the two-line push/trim
idiom of table.rs:1095-1099 and 1162-1166): append, and drop the oldest
entry when the window exceeds `H`. -/
def pushTrim (H : Nat) (hs : List Nat) (h : Nat) : List Nat :=
  if (hs ++ [h]).length > H then (hs ++ [h]).tail else hs ++ [h]

/-- A concrete table state: vertical offset 0, `page_len` 0 (a table that
has never been rendered), a generous `max_offset`. -/
def stPageLenZero : TableState :=
  ⟨true, ⟨0, 0, 10, 5⟩, [], [], [], 20, 20, ⟨0, 0, 100⟩, ⟨0, 0, 0⟩, ⟨none⟩⟩

/-- A concrete table state scrolled down by one row: vertical offset 1,
`page_len` 1, and `row_areas` holding the single entry for the one visible
row (row index 1), as documented at table.rs:272. -/
def stOffsetOne : TableState :=
  ⟨true, ⟨0, 0, 10, 5⟩, [⟨0, 5, 10, 1⟩], [⟨0, 0, 3, 2⟩], [], 3, 3,
    ⟨1, 1, 2⟩, ⟨0, 0, 0⟩, ⟨none⟩⟩

/-- A concrete table state over two rows with row 1 selected, consistent
with a two-element backing collection. -/
def stLeadOne : TableState :=
  ⟨true, ⟨0, 0, 10, 5⟩, [], [], [], 2, 2, ⟨0, 2, 4⟩, ⟨0, 0, 0⟩, ⟨some 1⟩⟩

/-- A concrete editor-overlay state in `Insert` mode over the two-row
backing collection `[7, 8]`. -/
def stEditInsert : EditVecState Nat := ⟨Mode.insert, stLeadOne, [7, 8], true⟩

/-- A concrete editor-overlay state in `View` mode over the two-row backing
collection `[7, 8]`. -/
def stEditView : EditVecState Nat := ⟨Mode.view, stLeadOne, [7, 8], false⟩

end RatFtable

namespace RatFtable

/-! ### Claim C3 — per-cell visibility test -/

/-- C3: the per-cell visibility test of `Table::render_iter` uses a
disjunction, so a column lying entirely left of the visible window
`[hscroll.offset, hscroll.offset + area.width)` — here the column occupies
`[0, 3)` while the window is `[10, 15)` — still passes the test and
`render_cell` is invoked for it, contradicting the claim that
fully-invisible columns are skipped. -/
theorem C3_fully_invisible_column_still_rendered :
    cellVisibleTest 0 3 10 5 = true ∧ 0 + 3 ≤ 10 := by
  constructor
  · decide
  · decide

/-! ### Claim C10 — `row_cells` -/

/-- C10: `TableState::row_cells` indexes `row_areas` with the absolute row
index instead of `row - offset`.  For the state `stOffsetOne` (offset 1,
page length 1, one recorded visible-row area), row 1 lies inside the visible
window, yet the lookup `row_areas[1]` is out of bounds — the Rust code
panics (modelled by the outer `none`) instead of returning the recorded area
`row_areas[1 - 1]`. -/
theorem C10_row_cells_panics_inside_window :
    stOffsetOne.row_cells 1 = none ∧
    stOffsetOne.vscroll.offset ≤ 1 ∧
    1 < stOffsetOne.vscroll.offset + stOffsetOne.vscroll.page_len ∧
    stOffsetOne.row_areas.get? (1 - stOffsetOne.vscroll.offset) =
      some ⟨0, 5, 10, 1⟩ := by
  refine ⟨by decide, by decide, by decide, by decide⟩

/-! ### Claim C4 — idempotence of `scroll_to_row` -/

/-- C4 counterexample: with `page_len = 0` (the claim quantifies over any
page length) the second of two successive `scroll_to_row 5` calls moves the
offset again (from 6 back to 5), so the claim's "never changes the vertical
offset on the second call" fails as stated. -/
theorem C4_counterexample_page_len_zero :
    ((stPageLenZero.scroll_to_row 5).1.scroll_to_row 5).1.vscroll.offset ≠
      (stPageLenZero.scroll_to_row 5).1.vscroll.offset := by
  decide

/-- C4 (amended): for any table state whose vertical `page_len` is at least
1 — every rendered table, since rendering records one entry per visible row —
a second `scroll_to_row` with the same target is a no-op returning `false`. -/
theorem C4_scroll_to_row_idempotent (st : TableState) (pos : Nat)
    (hpl : 1 ≤ st.page_len) :
    (st.scroll_to_row pos).1.scroll_to_row pos = ((st.scroll_to_row pos).1, false) := by
  have hpl' : 1 ≤ st.vscroll.page_len := hpl
  by_cases h1 : st.vscroll.offset + st.vscroll.page_len ≤ pos
  · have e1 : (st.scroll_to_row pos).1
        = { st with vscroll := { st.vscroll with offset := pos - st.vscroll.page_len + 1 } } := by
      simp [TableState.scroll_to_row, TableState.row_offset, TableState.page_len,
        TableState.set_row_offset, ScrollState.set_offset, h1]
    have c1 : ¬ (pos - st.vscroll.page_len + 1 + st.vscroll.page_len ≤ pos) := by omega
    have c2 : ¬ (pos < pos - st.vscroll.page_len + 1) := by omega
    rw [e1]
    simp [TableState.scroll_to_row, TableState.row_offset, TableState.page_len, c1, c2]
  · by_cases h2 : pos < st.vscroll.offset
    · have e1 : (st.scroll_to_row pos).1
          = { st with vscroll := { st.vscroll with offset := pos } } := by
        simp [TableState.scroll_to_row, TableState.row_offset, TableState.page_len,
          TableState.set_row_offset, ScrollState.set_offset, h1, h2]
      have c1 : ¬ (pos + st.vscroll.page_len ≤ pos) := by omega
      have c2 : ¬ (pos < pos) := by omega
      rw [e1]
      simp [TableState.scroll_to_row, TableState.row_offset, TableState.page_len, c1, c2]
    · have e1 : (st.scroll_to_row pos).1 = st := by
        simp [TableState.scroll_to_row, TableState.row_offset, TableState.page_len, h1, h2]
      rw [e1]
      simp [TableState.scroll_to_row, TableState.row_offset, TableState.page_len, h1, h2]

/-- C4 witness: the amended theorem applied at the concrete state
`stOffsetOne` (page length 1) and target row 7. -/
theorem C4_witness :
    1 ≤ stOffsetOne.page_len ∧
    (stOffsetOne.scroll_to_row 7).1.scroll_to_row 7 =
      ((stOffsetOne.scroll_to_row 7).1, false) :=
  ⟨by decide, C4_scroll_to_row_idempotent stOffsetOne 7 (by decide)⟩

/-! ### List helpers: `slice` and the sliding window -/

theorem slice_self (l : List Nat) (a : Nat) : slice l a a = [] := by
  simp [slice]

theorem slice_cons (l : List Nat) (a b : Nat) (ha : a < l.length)
    (hab : a + 1 ≤ b) : slice l a b = l.getD a 0 :: slice l (a + 1) b := by
  unfold slice
  rw [List.drop_eq_getElem_cons ha]
  have hb : b - a = (b - (a + 1)) + 1 := by omega
  rw [hb, List.take_succ_cons]
  congr 1
  exact (List.getD_eq_getElem l 0 ha).symm

theorem slice_single (l : List Nat) (a : Nat) (ha : a < l.length) :
    slice l a (a + 1) = [l.getD a 0] := by
  rw [slice_cons l a (a + 1) ha (by omega), slice_self]

theorem slice_len (l : List Nat) (a b : Nat) :
    (slice l a b).length = min (b - a) (l.length - a) := by
  simp [slice]

theorem slice_eq_drop (l : List Nat) (a : Nat) :
    slice l a l.length = l.drop a := by
  unfold slice
  exact List.take_of_length_le (by simp)

theorem slice_sum_len (l : List Nat) (a b : Nat) (h : ∀ x ∈ l, 1 ≤ x) :
    (slice l a b).length ≤ (slice l a b).sum := by
  refine List.length_le_sum_of_one_le _ fun i hi => h i ?_
  have h1 : i ∈ l.drop a := List.mem_of_mem_take hi
  exact List.mem_of_mem_drop h1

theorem foldl_pushTrim (H : Nat) :
    ∀ (P L : List Nat), L.length ≤ H →
      List.foldl (pushTrim H) L P = (L ++ P).drop ((L ++ P).length - H) := by
  intro P
  induction P with
  | nil =>
    intro L hL
    simp [Nat.sub_eq_zero_of_le hL]
  | cons h t ih =>
    intro L hL
    rw [List.foldl_cons]
    by_cases hlen : L.length + 1 ≤ H
    · have hpt : pushTrim H L h = L ++ [h] := by
        unfold pushTrim
        rw [if_neg]
        simp only [List.length_append, List.length_cons, List.length_nil]
        omega
      rw [hpt, ih (L ++ [h]) (by simp; omega), List.append_assoc,
        List.singleton_append]
    · have hLH : L.length = H := by omega
      have hpt : pushTrim H L h = (L ++ [h]).tail := by
        unfold pushTrim
        rw [if_pos]
        simp only [List.length_append, List.length_cons, List.length_nil]
        omega
      have hne : L ++ [h] ≠ [] := by simp
      rw [hpt, ih _ (by simp [List.length_tail]; omega),
        ← List.tail_append_of_ne_nil hne, ← List.drop_one, List.drop_drop]
      rw [List.append_assoc, List.singleton_append]
      congr 1
      simp only [List.length_drop, List.length_append, List.length_cons,
        List.length_tail]
      omega

/-! ### Properties of the spec-side `fillCountRev` -/

theorem fill_none_sum : ∀ (l : List Nat) (H : Nat),
    fillCountRev H l = none → l.sum < H := by
  intro l
  induction l with
  | nil =>
    intro H h
    cases H with
    | zero => simp [fillCountRev] at h
    | succ m => simp
  | cons x t ih =>
    intro H h
    cases H with
    | zero => simp [fillCountRev] at h
    | succ m =>
      simp only [fillCountRev] at h
      split_ifs at h with hx
      have ht := ih (m + 1 - x) (by simpa using h)
      simp only [List.sum_cons]
      omega

theorem fill_le_len : ∀ (l : List Nat) (H k : Nat),
    fillCountRev H l = some k → k ≤ l.length := by
  intro l
  induction l with
  | nil =>
    intro H k h
    cases H with
    | zero => simp [fillCountRev] at h; omega
    | succ m => simp [fillCountRev] at h
  | cons x t ih =>
    intro H k h
    cases H with
    | zero => simp [fillCountRev] at h; omega
    | succ m =>
      simp only [fillCountRev] at h
      split_ifs at h with hx
      · simp at h; simp; omega
      · rw [Option.map_eq_some'] at h
        obtain ⟨k0, hk0, hk⟩ := h
        have := ih _ _ hk0
        simp
        omega

theorem fill_le_H : ∀ (l : List Nat) (H k : Nat), (∀ x ∈ l, 1 ≤ x) →
    fillCountRev H l = some k → k ≤ H := by
  intro l
  induction l with
  | nil =>
    intro H k _ h
    cases H with
    | zero => simp [fillCountRev] at h; omega
    | succ m => simp [fillCountRev] at h
  | cons x t ih =>
    intro H k hone h
    cases H with
    | zero => simp [fillCountRev] at h; omega
    | succ m =>
      simp only [fillCountRev] at h
      split_ifs at h with hx
      · simp at h; omega
      · rw [Option.map_eq_some'] at h
        obtain ⟨k0, hk0, hk⟩ := h
        have h1 := ih _ _ (fun y hy => hone y (List.mem_cons_of_mem _ hy)) hk0
        have hx1 : 1 ≤ x := hone x (List.mem_cons_self _ _)
        omega

theorem fill_append : ∀ (l : List Nat) (H k : Nat) (l2 : List Nat),
    fillCountRev H l = some k → fillCountRev H (l ++ l2) = some k := by
  intro l
  induction l with
  | nil =>
    intro H k l2 h
    cases H with
    | zero => simp [fillCountRev] at h ⊢; omega
    | succ m => simp [fillCountRev] at h
  | cons x t ih =>
    intro H k l2 h
    cases H with
    | zero => simp [fillCountRev] at h ⊢; omega
    | succ m =>
      rw [List.cons_append]
      simp only [fillCountRev] at h ⊢
      split_ifs at h ⊢ with hx
      · exact h
      · rw [Option.map_eq_some'] at h
        obtain ⟨k0, hk0, hk⟩ := h
        rw [ih _ _ l2 hk0]
        simp [hk]

theorem fill_take_self : ∀ (l : List Nat) (H k : Nat),
    fillCountRev H l = some k → fillCountRev H (l.take k) = some k := by
  intro l
  induction l with
  | nil =>
    intro H k h
    cases H with
    | zero => simpa [fillCountRev] using h
    | succ m => simp [fillCountRev] at h
  | cons x t ih =>
    intro H k h
    cases H with
    | zero =>
      simp [fillCountRev] at h
      simp [fillCountRev, ← h]
    | succ m =>
      simp only [fillCountRev] at h
      split_ifs at h with hx
      · simp at h
        subst h
        simp [fillCountRev, hx]
      · rw [Option.map_eq_some'] at h
        obtain ⟨k0, hk0, hk⟩ := h
        subst hk
        rw [List.take_succ_cons]
        simp only [fillCountRev]
        rw [if_neg hx, ih _ _ hk0]
        rfl

theorem fill_take (l : List Nat) (H k w : Nat)
    (h : fillCountRev H l = some k) (hkw : k ≤ w) :
    fillCountRev H (l.take w) = some k := by
  have h1 := fill_take_self l H k h
  have h2 : l.take w = l.take k ++ (l.drop k).take (w - k) := by
    rw [← List.take_add]
    congr 1
    omega
  rw [h2]
  exact fill_append _ _ _ _ h1

/-! ### `calc_last_page` agrees with the spec-side `fillCountRev` -/

theorem calcGo_none (H : Nat) : ∀ (l : List Nat) (sum n : Nat), sum < H →
    fillCountRev (H - sum) l = none →
    calcLastPageGo H l sum n = (sum + l.sum, n + l.length) := by
  intro l
  induction l with
  | nil => intro sum n _ _; simp [calcLastPageGo]
  | cons x t ih =>
    intro sum n hsum hfill
    rcases hm : H - sum with _ | m
    · omega
    · rw [hm] at hfill
      simp only [fillCountRev] at hfill
      split_ifs at hfill with hx
      have ht : fillCountRev (m + 1 - x) t = none := by
        simpa using hfill
      have hsx : ¬ (sum + x ≥ H) := by omega
      have ht' : fillCountRev (H - (sum + x)) t = none := by
        have hhx : H - (sum + x) = m + 1 - x := by omega
        rw [hhx]
        exact ht
      simp only [calcLastPageGo]
      rw [if_neg hsx, ih (sum + x) (n + 1) (by omega) ht']
      simp only [List.sum_cons, List.length_cons, Prod.mk.injEq]
      constructor <;> omega

theorem calcGo_some (H : Nat) : ∀ (l : List Nat) (sum n k : Nat), sum < H →
    fillCountRev (H - sum) l = some k →
    ∃ s', H ≤ s' ∧ calcLastPageGo H l sum n = (s', n + k) := by
  intro l
  induction l with
  | nil =>
    intro sum n k hsum hfill
    rcases hm : H - sum with _ | m
    · omega
    · rw [hm] at hfill
      simp [fillCountRev] at hfill
  | cons x t ih =>
    intro sum n k hsum hfill
    rcases hm : H - sum with _ | m
    · omega
    · rw [hm] at hfill
      simp only [fillCountRev] at hfill
      split_ifs at hfill with hx
      · simp at hfill
        refine ⟨sum + x, by omega, ?_⟩
        simp only [calcLastPageGo]
        split_ifs with hc
        · have hk1 : k = 1 := by omega
          subst hk1
          rfl
        · exact absurd (by omega) hc
      · rw [Option.map_eq_some'] at hfill
        obtain ⟨k0, hk0, hk⟩ := hfill
        have hk0' : fillCountRev (H - (sum + x)) t = some k0 := by
          have : H - (sum + x) = m + 1 - x := by omega
          rw [this]
          exact hk0
        obtain ⟨s', hs', heq⟩ := ih (sum + x) (n + 1) k0 (by omega) hk0'
        refine ⟨s', hs', ?_⟩
        simp only [calcLastPageGo]
        rw [if_neg (by omega), heq]
        subst hk
        congr 1
        omega

theorem calc_eq_fill (H : Nat) (hH : 1 ≤ H) (hs : List Nat) :
    calc_last_page H hs = fillCountRev H hs.reverse := by
  unfold calc_last_page
  rcases hfill : fillCountRev H hs.reverse with _ | k
  · have h1 := calcGo_none H hs.reverse 0 0 (by omega)
      (by rw [Nat.sub_zero]; exact hfill)
    rw [h1]
    have h2 := fill_none_sum hs.reverse H hfill
    simp only [Nat.zero_add]
    rw [if_pos (by omega)]
  · obtain ⟨s', hs', heq⟩ := calcGo_some H hs.reverse 0 0 k (by omega)
      (by rw [Nat.sub_zero]; exact hfill)
    rw [heq]
    simp only [Nat.zero_add]
    rw [if_neg (by omega)]

/-! ### The render loop, the sliding window, and the regime characterizations -/


theorem iterSrc_nth_some (hts : List Nat) (k : Bool) (r n : Nat) :
    (IterSrc.mk hts k (some r)).nth n =
      (⟨hts, k, some (r + n + 1)⟩, decide (r + n + 1 < hts.length)) := rfl

theorem renderRowsGo_succ (ta : Rect) (fuel : Nat) (it : IterSrc)
    (row row_y : Nat) (hs : List Nat) (pl : Nat) (ras : List Rect) :
    renderRowsGo ta (fuel + 1) it row row_y hs pl ras =
      (let h := it.row_height
       let visible := (Rect.mk ta.x row_y ta.width (max h 1)).intersection ta
       if visible.bottom ≥ ta.bottom then
         ⟨it, some row, hs ++ [h], pl + 1, ras ++ [visible]⟩
       else
         let p := it.nth 0
         if p.2 then
           renderRowsGo ta fuel p.1 (row + 1) (row_y + h) (hs ++ [h]) (pl + 1)
             (ras ++ [visible])
         else ⟨p.1, some row, hs ++ [h], pl + 1, ras ++ [visible]⟩) := rfl

theorem rect_bottom_test (ta : Rect) (yrel h : Nat) :
    ((Rect.mk ta.x (ta.y + yrel) ta.width h).intersection ta).bottom ≥ ta.bottom
      ↔ ta.height ≤ yrel + h := by
  simp [Rect.intersection, Rect.bottom]
  omega

theorem renderRowsGo_spec (hts : List Nat) (k : Bool) (ta : Rect)
    (hh : ∀ x ∈ hts, 1 ≤ x) (hH : 1 ≤ ta.height) :
    ∀ (fuel r yrel : Nat) (hs0 : List Nat) (pl0 : Nat) (ras0 : List Rect),
      r < hts.length → hts.length - r ≤ fuel → yrel < ta.height →
      ∃ r', r ≤ r' ∧ r' < hts.length ∧
        yrel + (slice hts r r').sum < ta.height ∧
        (renderRowsGo ta fuel ⟨hts, k, some r⟩ r (ta.y + yrel) hs0 pl0 ras0).row_heights
            = hs0 ++ slice hts r (r' + 1) ∧
        (renderRowsGo ta fuel ⟨hts, k, some r⟩ r (ta.y + yrel) hs0 pl0 ras0).page_len
            = pl0 + (r' + 1 - r) ∧
        (renderRowsGo ta fuel ⟨hts, k, some r⟩ r (ta.y + yrel) hs0 pl0 ras0).row
            = some r' ∧
        ((renderRowsGo ta fuel ⟨hts, k, some r⟩ r (ta.y + yrel) hs0 pl0 ras0).it
            = ⟨hts, k, some r'⟩ ∨
         ((renderRowsGo ta fuel ⟨hts, k, some r⟩ r (ta.y + yrel) hs0 pl0 ras0).it
            = ⟨hts, k, some (r' + 1)⟩ ∧ r' + 1 = hts.length)) := by
  intro fuel
  induction fuel with
  | zero => intro r yrel hs0 pl0 ras0 hr hfuel _; omega
  | succ fuel ih =>
    intro r yrel hs0 pl0 ras0 hr hfuel hyrel
    rw [renderRowsGo_succ]
    simp only [IterSrc.row_height, IterSrc.nth]
    dsimp only
    have hone : 1 ≤ hts.getD r 0 := by
      rw [List.getD_eq_getElem hts 0 hr]
      exact hh _ (List.getElem_mem hr)
    have hmax : max (hts.getD r 0) 1 = hts.getD r 0 := by omega
    by_cases hbr : ta.height ≤ yrel + hts.getD r 0
    · rw [if_pos]
      swap
      · rw [hmax]
        exact (rect_bottom_test ta yrel (hts.getD r 0)).mpr hbr
      dsimp only
      refine ⟨r, le_refl r, hr, ?_, ?_, ?_, rfl, Or.inl rfl⟩
      · rw [slice_self]; simpa using hyrel
      · rw [slice_single hts r hr]
      · omega
    · rw [if_neg]
      swap
      · rw [hmax]
        intro hcon
        exact hbr ((rect_bottom_test ta yrel (hts.getD r 0)).mp hcon)
      by_cases hnext : r + 1 < hts.length
      · rw [if_pos (by simpa using hnext)]
        have hsum1 : yrel + hts.getD r 0 < ta.height := by omega
        have hrec := ih (r + 1) (yrel + hts.getD r 0) (hs0 ++ [hts.getD r 0])
          (pl0 + 1) (ras0 ++ [(Rect.mk ta.x (ta.y + yrel) ta.width (max (hts.getD r 0) 1)).intersection ta])
          hnext (by omega) hsum1
        obtain ⟨r', h1, h2, h3, h4, h5, h6, h7⟩ := hrec
        have hy : ta.y + yrel + hts.getD r 0 = ta.y + (yrel + hts.getD r 0) := by omega
        rw [hy]
        refine ⟨r', by omega, h2, ?_, ?_, ?_, h6, h7⟩
        · rw [slice_cons hts r r' hr (by omega)]
          simp only [List.sum_cons]
          omega
        · rw [h4, List.append_assoc, List.singleton_append,
            ← slice_cons hts r (r' + 1) hr (by omega)]
        · rw [h5]; omega
      · rw [if_neg (by simpa using hnext)]
        have hlen : r + 1 = hts.length := by omega
        dsimp only
        refine ⟨r, le_refl r, hr, ?_, ?_, ?_, rfl, Or.inr ⟨rfl, hlen⟩⟩
        · rw [slice_self]; simpa using hyrel
        · rw [slice_single hts r hr]
        · omega

theorem iterSrc_nth_none (hts : List Nat) (k : Bool) (n : Nat) :
    (IterSrc.mk hts k none).nth n = (⟨hts, k, some n⟩, decide (n < hts.length)) := rfl

theorem renderRows_spec (hts : List Nat) (k : Bool) (ta : Rect)
    (hh : ∀ x ∈ hts, 1 ≤ x) (hH : 1 ≤ ta.height) (o : Nat) (ho : o < hts.length) :
    ∃ r', o ≤ r' ∧ r' < hts.length ∧
      (slice hts o r').sum < ta.height ∧
      (renderRows ta ⟨hts, k, none⟩ o).row_heights = slice hts o (r' + 1) ∧
      (renderRows ta ⟨hts, k, none⟩ o).page_len = r' + 1 - o ∧
      (renderRows ta ⟨hts, k, none⟩ o).row = some r' ∧
      ((renderRows ta ⟨hts, k, none⟩ o).it = ⟨hts, k, some r'⟩ ∨
       ((renderRows ta ⟨hts, k, none⟩ o).it = ⟨hts, k, some (r' + 1)⟩ ∧
         r' + 1 = hts.length)) := by
  unfold renderRows
  rw [iterSrc_nth_none]
  dsimp only
  rw [if_pos (by simpa using ho)]
  have hy : ta.y = ta.y + 0 := by omega
  rw [hy]
  obtain ⟨r', h1, h2, h3, h4, h5, h6, h7⟩ :=
    renderRowsGo_spec hts k ta hh hH (hts.length + 1) o 0 [] 0 [] ho (by omega) (by omega)
  refine ⟨r', h1, h2, by simpa using h3, by simpa using h4, by simpa using h5, h6, h7⟩

theorem renderRows_fail (hts : List Nat) (k : Bool) (ta : Rect) (o : Nat)
    (ho : hts.length ≤ o) :
    renderRows ta ⟨hts, k, none⟩ o = ⟨⟨hts, k, some o⟩, none, [], 0, []⟩ := by
  unfold renderRows
  rw [iterSrc_nth_none]
  dsimp only
  rw [if_neg (by simpa using Nat.not_lt.mpr ho)]

theorem collectGo_succ (ta : Rect) (rows fuel : Nat) (it : IterSrc) (row : Nat)
    (hs : List Nat) :
    collectGo ta rows (fuel + 1) it row hs =
      (let hs2 := pushTrim ta.height hs it.row_height
       let p := it.nth 0
       if !p.2 then (p.1, row, hs2)
       else if row + 1 > rows then (p.1, row + 1, hs2)
       else collectGo ta rows fuel p.1 (row + 1) hs2) := rfl

theorem collectGo_spec (hts : List Nat) (k : Bool) (ta : Rect) :
    ∀ (fuel p : Nat) (hs : List Nat), p < hts.length → hts.length - p ≤ fuel →
      collectGo ta hts.length fuel ⟨hts, k, some p⟩ p hs =
        (⟨hts, k, some hts.length⟩, hts.length - 1,
          List.foldl (pushTrim ta.height) hs (slice hts p hts.length)) := by
  intro fuel
  induction fuel with
  | zero => intro p hs hp hf; omega
  | succ fuel ih =>
    intro p hs hp hf
    rw [collectGo_succ]
    simp only [IterSrc.row_height, IterSrc.nth, Nat.add_zero]
    dsimp only
    by_cases hnext : p + 1 < hts.length
    · have hng : ¬ (p + 1 > hts.length) := by omega
      rw [decide_eq_true hnext]
      simp only [Bool.not_true, Bool.false_eq_true, if_false, if_neg hng]
      rw [ih (p + 1) _ hnext (by omega), slice_cons hts p hts.length hp (by omega),
        List.foldl_cons]
    · have hp1 : p + 1 = hts.length := by omega
      rw [decide_eq_false (by omega : ¬ (p + 1 < hts.length))]
      simp only [Bool.not_false, if_true]
      rw [← hp1, slice_single hts p hp]
      simp

theorem slice_append (l : List Nat) (a m b : Nat) (ham : a ≤ m) (hmb : m ≤ b) :
    slice l a m ++ slice l m b = slice l a b := by
  unfold slice
  have h1 : l.drop m = (l.drop a).drop (m - a) := by
    rw [List.drop_drop]
    congr 1
    omega
  rw [h1, ← List.take_add]
  congr 1
  omega

theorem drainGo_stuck (hts : List Nat) (k : Bool) (p : Nat) (hp : hts.length ≤ p) :
    ∀ (fuel row : Nat), drainGo (fuel + 1) ⟨hts, k, some p⟩ row =
      (⟨hts, k, some (p + 1)⟩, row) := by
  intro fuel row
  have hlt : ¬ (p + 0 + 1 < hts.length) := by omega
  simp [drainGo, IterSrc.nth, hlt]

theorem fill_pos (l : List Nat) (H k : Nat) (hH : 1 ≤ H)
    (h : fillCountRev H l = some k) : 1 ≤ k := by
  rcases H with _ | m
  · omega
  · cases l with
    | nil => simp [fillCountRev] at h
    | cons x t =>
      simp only [fillCountRev] at h
      split_ifs at h with hx
      · simp at h; omega
      · rw [Option.map_eq_some'] at h
        obtain ⟨k0, _, hk⟩ := h
        omega

-- the main regime-A characterization for a rendered page (o < len)
theorem regimeA_main (hts : List Nat) (ta : Rect) (nrc : Bool) (o : Nat)
    (hh : ∀ x ∈ hts, 1 ≤ x) (hH : 1 ≤ ta.height) (holt : o < hts.length) :
    ∃ pl,
      (render_iter_vert ta nrc ⟨hts, true, none⟩ o).1 =
        ⟨hts.length, hts.length,
          (match calc_last_page ta.height
              (hts.drop (hts.length - min ta.height (hts.length - o))) with
           | some lp => hts.length - lp
           | none => hts.length - ta.height), pl⟩ := by
  obtain ⟨r', h1, h2, h3, h4, h5, h6, h7⟩ := renderRows_spec hts true ta hh hH o holt
  have hmH : r' + 1 - o ≤ ta.height := by
    have hlen1 : (slice hts o r').length = r' - o := by
      rw [slice_len]; omega
    have hsl := slice_sum_len hts o r' hh
    omega
  have hlo_rows : (renderRows ta ⟨hts, true, none⟩ o).it.rows = some hts.length := by
    rcases h7 with h7 | ⟨h7, _⟩ <;> rw [h7] <;> rfl
  refine ⟨r' + 1 - o, ?_⟩
  unfold render_iter_vert
  dsimp only
  rw [hlo_rows]
  dsimp only
  rw [h5, h4, h6]
  by_cases hskip : ta.height < hts.length - (r' + 1)
  · -- skip > 0 : clear the window, land at len - H
    rcases h7 with h7 | ⟨h7, hflen⟩
    swap
    · omega
    rw [h7]
    simp only [regimeA]
    dsimp only
    rw [if_pos (by omega : hts.length - (r' + 1) - ta.height > 0)]
    rw [iterSrc_nth_some]
    dsimp only
    have harith : r' + (hts.length - (r' + 1) - ta.height) + 1
        = hts.length - ta.height := by omega
    rw [harith]
    rw [decide_eq_true (by omega : hts.length - ta.height < hts.length)]
    simp only [if_true]
    rw [collectGo_spec hts true ta (hts.length + 2) (hts.length - ta.height) []
      (by omega) (by omega)]
    dsimp only
    rw [show hts.length + 2 = hts.length + 1 + 1 from rfl,
      drainGo_stuck hts true hts.length (le_refl _) (hts.length + 1) (hts.length - 1)]
    dsimp only
    have hcnt : hts.length - 1 + 1 = hts.length := by omega
    rw [hcnt]
    have hwin : List.foldl (pushTrim ta.height) []
        (slice hts (hts.length - ta.height) hts.length)
        = hts.drop (hts.length - min ta.height (hts.length - o)) := by
      rw [foldl_pushTrim ta.height _ [] (by simp)]
      have hlenp : (slice hts (hts.length - ta.height) hts.length).length
          = ta.height := by
        rw [slice_len]; omega
      rw [List.nil_append, hlenp, Nat.sub_self, List.drop_zero, slice_eq_drop]
      congr 1
      omega
    rw [hwin]
  · -- skip = 0 : keep the rendered heights
    have hskip0 : hts.length - (r' + 1) - ta.height = 0 := by omega
    by_cases hnext : r' + 1 < hts.length
    · -- more rows remain: must be the in-page break, pos = some r'
      rcases h7 with h7 | ⟨h7, hflen⟩
      swap
      · omega
      rw [h7]
      simp only [regimeA]
      dsimp only
      rw [hskip0]
      rw [if_neg (by omega : ¬ ((0 : Nat) > 0))]
      rw [iterSrc_nth_some]
      dsimp only
      rw [show r' + 0 + 1 = r' + 1 from rfl]
      rw [decide_eq_true hnext]
      simp only [if_true]
      rw [collectGo_spec hts true ta (hts.length + 2) (r' + 1) _ hnext (by omega)]
      dsimp only
      rw [show hts.length + 2 = hts.length + 1 + 1 from rfl,
        drainGo_stuck hts true hts.length (le_refl _) (hts.length + 1) (hts.length - 1)]
      dsimp only
      have hcnt : hts.length - 1 + 1 = hts.length := by omega
      rw [hcnt]
      have hwin : List.foldl (pushTrim ta.height) (slice hts o (r' + 1))
          (slice hts (r' + 1) hts.length)
          = hts.drop (hts.length - min ta.height (hts.length - o)) := by
        have hlen0 : (slice hts o (r' + 1)).length = r' + 1 - o := by
          rw [slice_len]; omega
        rw [foldl_pushTrim ta.height _ _ (by rw [hlen0]; omega)]
        rw [slice_append hts o (r' + 1) hts.length (by omega) (by omega)]
        have hlen2 : (slice hts o hts.length).length = hts.length - o := by
          rw [slice_len]; omega
        rw [hlen2, slice_eq_drop, List.drop_drop]
        congr 1
        omega
      rw [hwin]
    · -- the page consumed the source: r' + 1 = len, no further probing succeeds
      have hr1 : r' + 1 = hts.length := by omega
      have hW : hts.drop (hts.length - min ta.height (hts.length - o))
          = slice hts o (r' + 1) := by
        rw [show slice hts o (r' + 1)
            = slice hts o hts.length by rw [hr1], slice_eq_drop]
        congr 1
        omega
      rcases h7 with h7 | ⟨h7, hflen⟩
      · rw [h7]
        simp only [regimeA]
        dsimp only
        rw [hskip0]
        rw [if_neg (by omega : ¬ ((0 : Nat) > 0))]
        rw [iterSrc_nth_some]
        dsimp only
        rw [decide_eq_false (by omega : ¬ (r' + 0 + 1 < hts.length))]
        simp only [if_false, Bool.false_eq_true]
        rw [hW, hr1]
      · rw [h7]
        simp only [regimeA]
        dsimp only
        rw [hskip0]
        rw [if_neg (by omega : ¬ ((0 : Nat) > 0))]
        rw [iterSrc_nth_some]
        dsimp only
        rw [decide_eq_false (by omega : ¬ (r' + 1 + 0 + 1 < hts.length))]
        simp only [if_false, Bool.false_eq_true]
        rw [hW, hr1]

/-- C1 (amended): for a source with an exact count (`hts.length` rows with
the given heights), a viewport of height ≥ 1, all row heights ≥ 1, and a
pre-render vertical offset that does not exceed the true maximum offset
(`R - last_page_row_count`, with `last_page_row_count = R` when the heights
cannot fill the viewport): after one render pass — regime A is selected
whatever the `no_row_count` flag — the reported row count is exact,
`max_offset = R - last_page_row_count`, and the vertical offset (which the
render pass never modifies) is ≤ `max_offset`. -/
theorem C1_regimeA_amended (hts : List Nat) (ta : Rect) (nrc : Bool) (o : Nat)
    (hh : ∀ x ∈ hts, 1 ≤ x) (hH : 1 ≤ ta.height)
    (ho : o ≤ hts.length - lastPageRowCount hts ta.height) :
    (render_iter_vert ta nrc ⟨hts, true, none⟩ o).1.rows = hts.length ∧
    (render_iter_vert ta nrc ⟨hts, true, none⟩ o).1.max_offset
        = hts.length - lastPageRowCount hts ta.height ∧
    o ≤ (render_iter_vert ta nrc ⟨hts, true, none⟩ o).1.max_offset := by
  have hhrev : ∀ x ∈ hts.reverse, 1 ≤ x := by
    intro x hx
    exact hh x (List.mem_reverse.mp hx)
  rcases Nat.lt_or_ge o hts.length with holt | hoge
  · -- the main case: the offset is a real row
    obtain ⟨pl, hreg⟩ := regimeA_main hts ta nrc o hh hH holt
    rw [hreg]
    dsimp only
    rcases hfill : fillCountRev ta.height hts.reverse with _ | khat
    · -- no count of trailing rows fills the viewport: everything fits
      have hlp : lastPageRowCount hts ta.height = hts.length := by
        unfold lastPageRowCount
        rw [hfill]
        simp
      have ho0 : o = 0 := by rw [hlp] at ho; omega
      have hsum := fill_none_sum hts.reverse ta.height hfill
      have hlenH : hts.length < ta.height := by
        have hls := List.length_le_sum_of_one_le hts.reverse hhrev
        simp only [List.length_reverse] at hls
        omega
      have hWhts : hts.drop (hts.length - min ta.height (hts.length - o)) = hts := by
        rw [ho0]
        have : hts.length - min ta.height (hts.length - 0) = 0 := by omega
        rw [this, List.drop_zero]
      rw [hWhts, calc_eq_fill ta.height hH, hfill, hlp]
      refine ⟨rfl, ?_, ?_⟩
      · dsimp only
        omega
      · dsimp only
        omega
    · -- some trailing count khat fills the viewport
      have hlp : lastPageRowCount hts ta.height = khat := by
        unfold lastPageRowCount
        rw [hfill]
        rfl
      have hkpos : 1 ≤ khat := fill_pos hts.reverse ta.height khat hH hfill
      have hklen : khat ≤ hts.length := by
        have := fill_le_len hts.reverse ta.height khat hfill
        simpa using this
      have hkH : khat ≤ ta.height := fill_le_H hts.reverse ta.height khat hhrev hfill
      have hkw : khat ≤ min ta.height (hts.length - o) := by
        rw [hlp] at ho
        omega
      have hWrev : (hts.drop (hts.length - min ta.height (hts.length - o))).reverse
          = hts.reverse.take (min ta.height (hts.length - o)) := by
        rw [List.reverse_drop]
        congr 1
        omega
      have hWfill : calc_last_page ta.height
          (hts.drop (hts.length - min ta.height (hts.length - o))) = some khat := by
        rw [calc_eq_fill ta.height hH, hWrev]
        exact fill_take hts.reverse ta.height khat _ hfill hkw
      rw [hWfill, hlp]
      refine ⟨rfl, rfl, ?_⟩
      rw [hlp] at ho
      exact ho
  · -- offset at/past the end: the bound forces an empty table
    have hlen0 : hts.length = 0 := by
      by_contra hne
      have hlp_le : lastPageRowCount hts ta.height ≤ hts.length := by
        rcases hfill : fillCountRev ta.height hts.reverse with _ | khat
        · unfold lastPageRowCount
          rw [hfill]
          simp
        · unfold lastPageRowCount
          rw [hfill]
          simpa using fill_le_len hts.reverse ta.height khat hfill
      have hlp_pos : 1 ≤ lastPageRowCount hts ta.height := by
        rcases hfill : fillCountRev ta.height hts.reverse with _ | khat
        · unfold lastPageRowCount
          rw [hfill]
          simp
          omega
        · unfold lastPageRowCount
          rw [hfill]
          simpa using fill_pos hts.reverse ta.height khat hH hfill
      omega
    have ho0 : o = 0 := by omega
    have hnil : hts = [] := List.length_eq_zero.mp hlen0
    subst hnil ho0
    have hlp0 : lastPageRowCount [] ta.height = 0 := by
      unfold lastPageRowCount
      have hfn : fillCountRev ta.height ([] : List Nat).reverse = none := by
        cases hta : ta.height with
        | zero => omega
        | succ m => rfl
      rw [hfn]
      rfl
    rw [hlp0]
    unfold render_iter_vert
    dsimp only
    rw [renderRows_fail [] true ta 0 (by simp)]
    dsimp only [IterSrc.rows]
    simp only [if_true]
    simp only [regimeA]
    dsimp only
    rw [iterSrc_nth_some]
    dsimp only
    simp only [List.length_nil]
    rw [decide_eq_false (by omega : ¬ (0 + (0 - 0 - ta.height) + 1 < 0))]
    simp only [if_false, Bool.false_eq_true]
    have hcalc : calc_last_page ta.height (if 0 - 0 - ta.height > 0 then [] else []) = none := by
      rw [if_neg (by omega : ¬ ((0 : Nat) - 0 - ta.height > 0))]
      unfold calc_last_page
      simp only [List.reverse_nil, calcLastPageGo]
      rw [if_pos (by omega : 0 < ta.height)]
    rw [hcalc]
    simp

/-- C2 (amended): under Regime B (`rows()` unknown, `no_row_count` set),
rendering from offset 0 with viewport height ≥ 1 and all row heights ≥ 1:
`max_offset` is always set to the `usize::MAX - 1` sentinel (also when no
probe succeeds — it never becomes 0); if the source holds at most one row
more than the rendered page (`N ≤ page_len + 1`), the reported count
becomes exact (`N`); if at least two rows remain past the page
(`N ≥ page_len + 2`), the reported count becomes `usize::MAX`, not
`rendered + 1`. -/
theorem C2_regimeB_amended (hts : List Nat) (ta : Rect)
    (hh : ∀ x ∈ hts, 1 ≤ x) (hH : 1 ≤ ta.height) :
    (render_iter_vert ta true ⟨hts, false, none⟩ 0).1.max_offset = USIZE_MAX - 1 ∧
    (hts.length ≤ (render_iter_vert ta true ⟨hts, false, none⟩ 0).1.page_len + 1 →
      (render_iter_vert ta true ⟨hts, false, none⟩ 0).1.rows = hts.length) ∧
    ((render_iter_vert ta true ⟨hts, false, none⟩ 0).1.page_len + 2 ≤ hts.length →
      (render_iter_vert ta true ⟨hts, false, none⟩ 0).1.rows = USIZE_MAX) := by
  have hUM : USIZE_MAX - 1 + 1 = USIZE_MAX := by decide
  rcases Nat.eq_zero_or_pos hts.length with hlen0 | hlenpos
  · -- empty source
    unfold render_iter_vert
    dsimp only
    rw [renderRows_fail hts false ta 0 (by omega)]
    dsimp only [IterSrc.rows]
    simp only [Bool.false_eq_true, if_false, if_true]
    simp [regimeB, hlen0]
  · -- at least one row is rendered
    obtain ⟨r', h1, h2, h3, h4, h5, h6, h7⟩ :=
      renderRows_spec hts false ta hh hH 0 hlenpos
    have hlo_rows : (renderRows ta ⟨hts, false, none⟩ 0).it.rows = none := by
      rcases h7 with h7 | ⟨h7, _⟩ <;> rw [h7] <;> rfl
    unfold render_iter_vert
    dsimp only
    rw [hlo_rows]
    dsimp only
    simp only [if_true]
    rw [h5, h6]
    have hpl : r' + 1 - 0 = r' + 1 := by omega
    rw [hpl]
    have hplne : ¬ (r' + 1 = 0) := by omega
    rcases h7 with h7 | ⟨h7, hflen⟩
    · rw [h7]
      simp only [regimeB]
      rw [iterSrc_nth_some]
      dsimp only
      simp only [Nat.add_zero]
      by_cases hnext : r' + 1 < hts.length
      · rw [decide_eq_true hnext]
        simp only [if_true]
        rw [iterSrc_nth_some]
        dsimp only
        simp only [Nat.add_zero]
        by_cases hnext2 : r' + 1 + 1 < hts.length
        · rw [decide_eq_true hnext2]
          simp only [if_true]
          rw [if_neg hplne]
          refine ⟨trivial, fun hcon => by omega, fun _ => by omega⟩
        · rw [decide_eq_false hnext2]
          simp only [Bool.false_eq_true, if_false]
          rw [if_neg hplne]
          have hlen : hts.length = r' + 1 + 1 := by omega
          refine ⟨trivial, fun _ => by omega, fun hcon => by omega⟩
      · rw [decide_eq_false hnext]
        simp only [Bool.false_eq_true, if_false]
        rw [if_neg hplne]
        have hlen : hts.length = r' + 1 := by omega
        refine ⟨trivial, fun _ => by omega, fun hcon => by omega⟩
    · rw [h7]
      simp only [regimeB]
      rw [iterSrc_nth_some]
      dsimp only
      simp only [Nat.add_zero]
      rw [decide_eq_false (by omega : ¬ (r' + 1 + 1 < hts.length))]
      simp only [Bool.false_eq_true, if_false]
      rw [if_neg hplne]
      refine ⟨trivial, fun _ => by omega, fun hcon => by omega⟩

/-- C1 counterexample: the claim as stated asserts `offset ≤ max_offset`
after every Regime-A render.  For a source reporting exactly 1 row, a
viewport of height 1 and a (perfectly legal, "insane") pre-render offset of
5, the render pass computes `max_offset = 0` but never touches the vertical
offset, so after the render the offset 5 exceeds `max_offset` — the claim's
second conjunct fails. -/
theorem C1_counterexample_insane_offset :
    (render_iter_vert ⟨0, 0, 5, 1⟩ false ⟨[1], true, none⟩ 5).1.max_offset = 0 ∧
    ¬ (5 ≤ (render_iter_vert ⟨0, 0, 5, 1⟩ false ⟨[1], true, none⟩ 5).1.max_offset) := by
  refine ⟨by decide, by decide⟩

/-- C1 witness: the amended theorem applied to 3 rows of height 1, viewport
height 2 and offset 1 (= the true maximum offset). -/
theorem C1_witness :
    (render_iter_vert ⟨0, 0, 5, 2⟩ false ⟨[1, 1, 1], true, none⟩ 1).1.rows
        = [1, 1, 1].length ∧
    (render_iter_vert ⟨0, 0, 5, 2⟩ false ⟨[1, 1, 1], true, none⟩ 1).1.max_offset
        = [1, 1, 1].length - lastPageRowCount [1, 1, 1] (Rect.mk 0 0 5 2).height ∧
    1 ≤ (render_iter_vert ⟨0, 0, 5, 2⟩ false ⟨[1, 1, 1], true, none⟩ 1).1.max_offset :=
  C1_regimeA_amended [1, 1, 1] ⟨0, 0, 5, 2⟩ false 1 (by decide) (by decide) (by decide)

/-- C2 counterexample: a 2-row source rendered under Regime B into a
10-row viewport.  No probe past the page succeeds, so per the claim the
reported count becomes exact (it does: 2) and `max_offset` should become
"exact (0 relative to the current page)" — but the code sets the
`usize::MAX - 1` sentinel unconditionally (table.rs:1153). -/
theorem C2_counterexample_sentinel_max_offset :
    (render_iter_vert ⟨0, 0, 5, 10⟩ true ⟨[1, 1], false, none⟩ 0).1.rows = 2 ∧
    (render_iter_vert ⟨0, 0, 5, 10⟩ true ⟨[1, 1], false, none⟩ 0).1.max_offset
        = USIZE_MAX - 1 ∧
    (render_iter_vert ⟨0, 0, 5, 10⟩ true ⟨[1, 1], false, none⟩ 0).1.max_offset ≠ 0 := by
  refine ⟨by decide, by decide, by decide⟩

/-- C2 witness: the amended theorem applied to a single-row uncounted
source and a height-1 viewport. -/
theorem C2_witness :
    (render_iter_vert ⟨0, 0, 5, 1⟩ true ⟨[1], false, none⟩ 0).1.max_offset
        = USIZE_MAX - 1 ∧
    ([1].length ≤ (render_iter_vert ⟨0, 0, 5, 1⟩ true ⟨[1], false, none⟩ 0).1.page_len + 1 →
      (render_iter_vert ⟨0, 0, 5, 1⟩ true ⟨[1], false, none⟩ 0).1.rows = [1].length) ∧
    ((render_iter_vert ⟨0, 0, 5, 1⟩ true ⟨[1], false, none⟩ 0).1.page_len + 2 ≤ [1].length →
      (render_iter_vert ⟨0, 0, 5, 1⟩ true ⟨[1], false, none⟩ 0).1.rows = USIZE_MAX) :=
  C2_regimeB_amended [1] ⟨0, 0, 5, 1⟩ (by decide) (by decide)

/-! ### Claim C5 — non-clonable iterator degrades gracefully -/

/-- C5: when the forward-iterator source's `cloned()` returns `None`, the
by-reference iteration degrades to the `Invalid` iterator: `rows()` reports
`Some(1)`, the cursor yields exactly one row (`nth(0)` succeeds once, then
fails), and the diagnostic row is written only in column 0 — no panic is
involved anywhere on this path. -/
theorem C5_non_clonable_iter_degrades (it : IterSrc) (r : Option Nat) (c : Nat)
    (area : Rect) (hc : c ≠ 0) :
    (DataRepr.Iter it none).iter = DataReprIter.Invalid none ∧
    (DataReprIter.Invalid r).rows = some 1 ∧
    ((DataReprIter.Invalid none).nth 0).2 = true ∧
    (((DataReprIter.Invalid none).nth 0).1.nth 0).2 = false ∧
    (DataReprIter.Invalid r).render_cell_diag c area = none ∧
    (DataReprIter.Invalid r).render_cell_diag 0 area =
      some (area.x, area.y, invalidDiagnostic) := by
  refine ⟨rfl, rfl, rfl, rfl, ?_, rfl⟩
  simp [DataReprIter.render_cell_diag, hc]

/-- C5 witness: the theorem applied at a concrete iterator, row cursor,
column 1 and cell area. -/
theorem C5_witness :
    (1 : Nat) ≠ 0 ∧
    (DataReprIter.Invalid (some 0)).render_cell_diag 1 ⟨2, 3, 4, 5⟩ = none :=
  ⟨by decide,
    (C5_non_clonable_iter_degrades ⟨[], false, none⟩ (some 0) 1 ⟨2, 3, 4, 5⟩
      (by decide)).2.2.2.2.1⟩

/-! ### Claim C6 — `items_added` then `items_removed` restores the state -/

/-- Helper: the selection round-trip at the `RowSelection` level. -/
theorem rowSelection_add_remove (sel : RowSelection) (pos n : Nat)
    (h : ∀ i, sel.lead = some i → i < pos ∨ pos + n ≤ i) :
    (sel.items_added pos n).items_removed pos n = sel := by
  cases sel with
  | mk lead =>
    cases lead with
    | none => rfl
    | some i =>
      have hi := h i rfl
      simp only [RowSelection.items_added, RowSelection.items_removed,
        Option.map_some', RowSelection.mk.injEq, Option.some.injEq]
      split_ifs <;> omega

/-- C6: for a selection whose lead is not inside `[pos, pos + n)`,
`items_added(pos, n)` followed by `items_removed(pos, n)` restores both the
row count and the selection. -/
theorem C6_items_added_removed_restore (st : TableState) (pos n : Nat)
    (h : ∀ i, st.selection.lead = some i → i < pos ∨ pos + n ≤ i) :
    ((st.items_added pos n).items_removed pos n).rows = st.rows ∧
    ((st.items_added pos n).items_removed pos n).selection = st.selection := by
  constructor
  · simp only [TableState.items_added, TableState.items_removed]
    omega
  · simp only [TableState.items_added, TableState.items_removed]
    exact rowSelection_add_remove st.selection pos n h

/-- C6 witness: the theorem applied at `stLeadOne` (lead row 1) with an
insertion/removal of 2 rows at position 3 (the lead is outside `[3, 5)`). -/
theorem C6_witness :
    ((stLeadOne.items_added 3 2).items_removed 3 2).rows = stLeadOne.rows ∧
    ((stLeadOne.items_added 3 2).items_removed 3 2).selection = stLeadOne.selection :=
  C6_items_added_removed_restore stLeadOne 3 2
    (by intro i hi; simp [stLeadOne] at hi; omega)

/-! ### Claim C8 — double-entry protection of the editor overlay -/

/-- C8: while the overlay is in `Insert` or `Edit`, `edit_new`, `edit` and
`remove` are successful no-ops (the whole state — mode, backing collection,
table and selection — is returned unchanged with an `Ok` result);
symmetrically, `cancel` and `commit` in `View` mode are successful no-ops. -/
theorem C8_guard_no_ops {D Err : Type} (st : EditVecState D) (row : Nat)
    (nd : Except Err D) (sed : D → Except Err Unit)
    (wb : D → Except Err Unit × D) :
    (st.mode = Mode.insert ∨ st.mode = Mode.edit →
      st.edit_new row nd sed = some (st, Except.ok ()) ∧
      st.edit row sed = some (st, Except.ok ()) ∧
      st.remove row = st) ∧
    (st.mode = Mode.view →
      st.cancel = some st ∧
      st.commit wb = some (st, Except.ok ())) := by
  constructor
  · intro hm
    have hne : st.mode ≠ Mode.view := by rcases hm with h | h <;> simp [h]
    refine ⟨?_, ?_, ?_⟩ <;>
      simp [EditVecState.edit_new, EditVecState.edit, EditVecState.remove, hne]
  · intro hm
    constructor <;> simp [EditVecState.cancel, EditVecState.commit, hm]

/-- C8 witness: the theorem applied at the concrete `Insert`-mode state (for
the first half) and at the concrete `View`-mode state (for the second). -/
theorem C8_witness :
    stEditInsert.edit_new 0 (Except.ok 3 : Except Unit Nat) (fun _ => Except.ok ())
      = some (stEditInsert, Except.ok ()) ∧
    stEditView.cancel = some stEditView :=
  ⟨((C8_guard_no_ops stEditInsert 0 (Except.ok 3) (fun _ => Except.ok ())
      (fun d => (Except.ok (), d))).1 (Or.inl rfl)).1,
   ((C8_guard_no_ops stEditView 0 (Except.ok (3 : Nat) : Except Unit Nat)
      (fun _ => Except.ok ()) (fun d => (Except.ok (), d))).2 rfl).1⟩

/-! ### Claim C9 — a failed commit keeps the editing mode -/

/-- C9: if the editor's write-back (`get_edit_data`) fails, `commit`
propagates the error as a typed result, and the resulting state keeps the
current `Insert`/`Edit` mode and both focus flags — `_stop` (the transition
to `View` with the focus hand-back) is not executed.  Only the selected
row's value carries whatever partial mutation the write-back performed. -/
theorem C9_commit_error_keeps_mode {D Err : Type} (st : EditVecState D)
    (row : Nat) (v v' : D) (e : Err) (wb : D → Except Err Unit × D)
    (hm : st.mode ≠ Mode.view)
    (hs : st.table.selected = some row)
    (hv : st.editor_data.get? row = some v)
    (hw : wb v = (Except.error e, v')) :
    st.commit wb =
      some ({ st with editor_data := st.editor_data.set row v' }, Except.error e) ∧
    ({ st with editor_data := st.editor_data.set row v' } : EditVecState D).mode
      = st.mode ∧
    ({ st with editor_data := st.editor_data.set row v' } : EditVecState D).editor_focus
      = st.editor_focus ∧
    ({ st with editor_data := st.editor_data.set row v' } : EditVecState D).table.focus
      = st.table.focus := by
  refine ⟨?_, rfl, rfl, rfl⟩
  simp only [List.get?_eq_getElem?] at hv
  simp [EditVecState.commit, hm, hs, hv, hw]

/-! ### Claim C7 — `edit_new` then `cancel` round-trip -/

/-- `scroll_to_row` only moves the vertical offset: row count unchanged. -/
theorem scroll_to_row_rows (s : TableState) (p : Nat) :
    (s.scroll_to_row p).1.rows = s.rows := by
  simp only [TableState.scroll_to_row, TableState.set_row_offset,
    ScrollState.set_offset]
  split_ifs <;> rfl

/-- `scroll_to_row` only moves the vertical offset: selection unchanged. -/
theorem scroll_to_row_selection (s : TableState) (p : Nat) :
    (s.scroll_to_row p).1.selection = s.selection := by
  simp only [TableState.scroll_to_row, TableState.set_row_offset,
    ScrollState.set_offset]
  split_ifs <;> rfl

/-- `scroll_to_col` only moves the horizontal offset: row count unchanged. -/
theorem scroll_to_col_rows (s : TableState) (p : Nat) :
    (s.scroll_to_col p).1.rows = s.rows := by
  simp only [TableState.scroll_to_col, TableState.set_x_offset,
    ScrollState.set_offset]
  rcases s.column_layout.get? p with _ | col
  · rfl
  · dsimp only
    split_ifs <;> rfl

/-- `scroll_to_col` only moves the horizontal offset: selection unchanged. -/
theorem scroll_to_col_selection (s : TableState) (p : Nat) :
    (s.scroll_to_col p).1.selection = s.selection := by
  simp only [TableState.scroll_to_col, TableState.set_x_offset,
    ScrollState.set_offset]
  rcases s.column_layout.get? p with _ | col
  · rfl
  · dsimp only
    split_ifs <;> rfl

/-- `move_to` keeps the row count. -/
theorem move_to_rows (s : TableState) (p : Nat) :
    (s.move_to p).1.rows = s.rows := by
  simp only [TableState.move_to, RowSelection.move_to]
  rw [scroll_to_row_rows]

/-- `move_to` clamps the selection lead to `rows - 1`. -/
theorem move_to_selection (s : TableState) (p : Nat) :
    (s.move_to p).1.selection = ⟨some (min p (s.rows - 1))⟩ := by
  simp only [TableState.move_to, RowSelection.move_to]
  rw [scroll_to_row_selection]

/-- `_start` does not touch the backing collection. -/
theorem mstart_editor_data {D : Type} (st : EditVecState D) (pos : Nat) (m : Mode) :
    (st.mstart pos m).editor_data = st.editor_data := by
  simp only [EditVecState.mstart]
  split_ifs <;> rfl

/-- `_start` enters the requested mode. -/
theorem mstart_mode {D : Type} (st : EditVecState D) (pos : Nat) (m : Mode) :
    (st.mstart pos m).mode = m := by
  simp only [EditVecState.mstart]
  split_ifs <;> rfl

/-- `_start` into `Insert` bumps the table row count by the inserted row. -/
theorem mstart_insert_rows {D : Type} (st : EditVecState D) (pos : Nat) :
    (st.mstart pos Mode.insert).table.rows = st.table.rows + 1 := by
  simp only [EditVecState.mstart]
  split_ifs with h1 h2 <;>
    simp_all [scroll_to_col_rows, move_to_rows, TableState.items_added]

/-- `_start` into `Insert` selects the clamped target row. -/
theorem mstart_insert_selected {D : Type} (st : EditVecState D) (pos : Nat) :
    (st.mstart pos Mode.insert).table.selected
      = some (min pos (st.table.rows + 1 - 1)) := by
  simp only [EditVecState.mstart, TableState.selected, RowSelection.selected]
  split_ifs with h1 h2 <;>
    simp_all [scroll_to_col_selection, move_to_selection, TableState.items_added]

/-- `_stop` does not touch the backing collection. -/
theorem mstop_editor_data {D : Type} (st : EditVecState D) :
    st.mstop.editor_data = st.editor_data := by
  simp only [EditVecState.mstop]
  split_ifs <;> rfl

/-- `_stop` returns to `View`. -/
theorem mstop_mode {D : Type} (st : EditVecState D) :
    st.mstop.mode = Mode.view := by
  simp only [EditVecState.mstop]
  split_ifs <;> rfl

/-- `_stop` keeps the table row count. -/
theorem mstop_rows {D : Type} (st : EditVecState D) :
    st.mstop.table.rows = st.table.rows := by
  simp only [EditVecState.mstop]
  split_ifs <;> simp_all [scroll_to_col_rows]

/-- C7: from `View` with a valid insert position `r` (a position within the
backing collection, whose length agrees with the table's row count), a
successful `edit_new r` followed by `cancel` restores the backing
collection (length and contents) and the table row count, and returns the
overlay to `View` mode. -/
theorem C7_edit_new_cancel_roundtrip {D Err : Type} (st : EditVecState D)
    (r : Nat) (v : D) (sed : D → Except Err Unit)
    (hm : st.mode = Mode.view)
    (hr : r ≤ st.editor_data.length)
    (hsync : st.table.rows = st.editor_data.length)
    (hsed : sed v = Except.ok ()) :
    ∃ st1 st2,
      st.edit_new r (Except.ok v) sed = some (st1, Except.ok ()) ∧
      st1.mode = Mode.insert ∧
      st1.cancel = some st2 ∧
      st2.editor_data = st.editor_data ∧
      st2.table.rows = st.table.rows ∧
      st2.mode = Mode.view := by
  have h1 : st.edit_new r (Except.ok v) sed =
      some (({ st with editor_data := st.editor_data.insertIdx r v
             } : EditVecState D).mstart r Mode.insert, Except.ok ()) := by
    simp [EditVecState.edit_new, hm, hsed, hr]
  set stIns := ({ st with editor_data := st.editor_data.insertIdx r v
    } : EditVecState D) with hstIns
  set st1 := stIns.mstart r Mode.insert with hst1
  have hmode1 : st1.mode = Mode.insert := mstart_mode _ _ _
  have hstInsTable : stIns.table = st.table := rfl
  have hsel1 : st1.table.selected = some r := by
    rw [hst1, mstart_insert_selected, hstInsTable]
    congr 1
    omega
  have hdata1 : st1.editor_data = st.editor_data.insertIdx r v :=
    mstart_editor_data _ _ _
  have hlt : r < st1.editor_data.length := by
    rw [hdata1, List.length_insertIdx _ _ hr]
    omega
  have hrows1 : st1.table.rows = st.table.rows + 1 := by
    rw [hst1, mstart_insert_rows, hstInsTable]
  set st2c := ({ st1 with
    editor_data := st1.editor_data.eraseIdx r
    table := st1.table.items_removed r 1 } : EditVecState D).mstop with hst2
  have hnv : st1.mode ≠ Mode.view := by rw [hmode1]; decide
  have hc : st1.cancel = some st2c := by
    rw [hst2]
    unfold EditVecState.cancel
    rw [if_neg hnv, hsel1]
    dsimp only
    rw [if_pos hmode1, if_pos hlt]
  refine ⟨st1, st2c, h1, hmode1, hc, ?_, ?_, ?_⟩
  · show st2c.editor_data = st.editor_data
    rw [hst2, mstop_editor_data]
    show st1.editor_data.eraseIdx r = st.editor_data
    rw [hdata1, List.eraseIdx_insertIdx]
  · show st2c.table.rows = st.table.rows
    rw [hst2, mstop_rows]
    show (st1.table.items_removed r 1).rows = st.table.rows
    simp only [TableState.items_removed]
    omega
  · exact mstop_mode _

/-- C7 witness: the theorem applied at the concrete `View`-mode state with
insert position 1 and new value 3. -/
theorem C7_witness :
    ∃ st1 st2,
      stEditView.edit_new 1 (Except.ok 3 : Except Unit Nat) (fun _ => Except.ok ())
        = some (st1, Except.ok ()) ∧
      st1.mode = Mode.insert ∧
      st1.cancel = some st2 ∧
      st2.editor_data = stEditView.editor_data ∧
      st2.table.rows = stEditView.table.rows ∧
      st2.mode = Mode.view :=
  C7_edit_new_cancel_roundtrip stEditView 1 3 (fun _ => Except.ok ())
    (by decide) (by decide) (by decide) rfl

/-- C9 witness: the theorem applied at the concrete `Insert`-mode state with
a write-back that fails with the error "boom" after bumping the value. -/
theorem C9_witness :
    stEditInsert.commit (fun d => (Except.error "boom", d + 1)) =
      some ({ stEditInsert with editor_data := [7, 8].set 1 9 }, Except.error "boom") :=
  (C9_commit_error_keeps_mode stEditInsert 1 8 9 "boom"
    (fun d => (Except.error "boom", d + 1))
    (by decide) (by decide) (by decide) rfl).1

end RatFtable
